import Mathlib

/-!
Verification development for the SNS platform-application resource handler
(`aws/resource_aws_sns_application.go`).

The Go source is shallowly embedded: string-keyed Go maps become association
lists (`SMap`), the terraform `ResourceData`/`ResourceDiff` handle becomes an
explicit record of the resource id, the prior attribute values and the current
(config) attribute values, and each remote SNS call becomes an oracle function
passed to the handler.  Straight-line Go functions become pure Lean functions
returning the updated state together with an `Except String` result that models
the returned Go `error`.
-/

set_option autoImplicit false

namespace SnsApp

/-! ## String-keyed maps (Go `map[string]string` / `map[string]*string`) -/

/-- Association-list model of a Go string map.  All observations go through
`getVal`, so only the extensional key-value content matters. -/
abbrev SMap := List (String × String)

/-- Lookup of a key, `none` when absent (Go `v, ok := m[k]` with `ok = false`). -/
def SMap.getVal (m : SMap) (k : String) : Option String :=
  (m.find? (fun p => p.1 == k)).map (fun p => p.2)

/-- Map update `m[k] = v` (replaces any previous binding of `k`). -/
def SMap.setVal (m : SMap) (k v : String) : SMap :=
  (k, v) :: m.filter (fun p => !(p.1 == k))

/-! ## Character-level string splitting (Go `strings.Split` / `strings.SplitN`) -/

/-- Split a character list at every occurrence of `c`; always returns at least
one chunk, and `n` separators yield `n + 1` chunks. -/
def splitCharList (c : Char) : List Char → List (List Char)
  | [] => [[]]
  | x :: xs =>
    match splitCharList c xs with
    | [] => if x == c then [[], []] else [[x]]
    | y :: ys => if x == c then [] :: y :: ys else (x :: y) :: ys

/-- Go `strings.Split(s, c)` for a one-character separator. -/
def splitChar (c : Char) (s : String) : List String :=
  (splitCharList c s.data).map (fun l => ⟨l⟩)

/-- Join chunks back with the separator `c` (used by the `SplitN` tail). -/
def joinChar (c : Char) (l : List String) : String :=
  ⟨List.intercalate [c] (l.map (fun s => s.data))⟩

/-- Go `strings.SplitN(s, c, n)` for a one-character separator and `n ≥ 1`:
at most `n` chunks, the last chunk keeping any further separators. -/
def splitNChar (c : Char) (n : Nat) (s : String) : List String :=
  let parts := splitChar c s
  if parts.length ≤ n then parts
  else parts.take (n - 1) ++ [joinChar c (parts.drop (n - 1))]

/-- Whether `s` contains the character `c` (Go `strings.Contains`). -/
def strHasChar (s : String) (c : Char) : Bool :=
  s.data.contains c

/-! ## The ARN address type and its parser -/

/-- Structured 5-part address (the `arn.ARN` struct of the identifier parser). -/
structure GoARN where
  partition : String
  service : String
  region : String
  accountID : String
  resource : String
deriving Repr, DecidableEq

/-- Serialise a `GoARN` back to its identifier string (the parser's `String()`
method, used by Read both for the stored `arn` field and for error texts). -/
def arnToString (a : GoARN) : String :=
  "arn:" ++ a.partition ++ ":" ++ a.service ++ ":" ++ a.region ++ ":" ++
    a.accountID ++ ":" ++ a.resource

/-- Modelled from the spec: the identifier parser (`arn.Parse`) used by Read is
an external collaborator whose source is not part of this repository.  Per the
spec's identifier format, an identifier is `arn:` followed by five
colon-separated top-level segments (partition, service, region, account id,
resource), the resource segment keeping any further colons; anything else is
not in the 5-part address form and fails to parse. -/
def arnParse (s : String) : Option GoARN :=
  if List.isPrefixOf ['a', 'r', 'n', ':'] s.data then
    match splitNChar ':' 6 s with
    | [_, p, sv, r, a, res] => some (GoARN.mk p sv r a res)
    | _ => none
  else none

/-! ## Resource state (`schema.ResourceData` / `schema.ResourceDiff`) -/

/-- Modelled from the spec: the terraform state handle is an external
collaborator; per the spec it supplies the desired configuration and the
previously persisted snapshot.  `rid` is `d.Id()`, `prior` holds the old
attribute values and `config` the current ones; `d.Get` reads `config` with the
string zero value `""` for an absent field, `d.GetOk` reports a field together
with whether it has any value set, and `d.Set` / `d.SetId` write `config` /
`rid`. -/
structure ResourceData where
  rid : String
  prior : SMap
  config : SMap
deriving Repr, DecidableEq

/-- Go `d.Get(k).(string)`: the current value, `""` when unset. -/
def ResourceData.getAttr (d : ResourceData) (k : String) : String :=
  (d.config.getVal k).getD ""

/-- Go `v, ok := d.GetOk(k)`: `some` exactly when the field has a value set. -/
def ResourceData.getOkAttr (d : ResourceData) (k : String) : Option String :=
  d.config.getVal k

/-- Go `d.HasChange(k)`: the old and new values differ (unset reads as `""`). -/
def ResourceData.hasChange (d : ResourceData) (k : String) : Bool :=
  !((d.prior.getVal k).getD "" == (d.config.getVal k).getD "")

/-- Go `d.Set(k, v)`. -/
def ResourceData.setAttr (d : ResourceData) (k v : String) : ResourceData :=
  { d with config := d.config.setVal k v }

/-- Go `d.SetId(i)`. -/
def ResourceData.setId (d : ResourceData) (i : String) : ResourceData :=
  { d with rid := i }

/-! ## The fixed lookup tables of the source -/

/-- Go `snsPlatformRequiresPlatformPrincipal` (`map[string]bool`). -/
def snsPlatformRequiresPlatformPrincipal : List (String × Bool) :=
  [("APNS", true), ("APNS_SANDBOX", true)]

/-- Go map read `snsPlatformRequiresPlatformPrincipal[platform]` with the
`bool` zero value `false` for absent keys. -/
def requiresPlatformPrincipal (p : String) : Bool :=
  (((snsPlatformRequiresPlatformPrincipal.find? (fun q => q.1 == p)).map
    (fun q => q.2)).getD false)

/-- Go `SNSPlatformAppAttributeMap`: local field name to remote attribute
name. -/
def SNSPlatformAppAttributeMap : SMap :=
  [("event_delivery_failure_topic_arn", "EventDeliveryFailure"),
   ("event_endpoint_created_topic_arn", "EventEndpointCreated"),
   ("event_endpoint_deleted_topic_arn", "EventEndpointDeleted"),
   ("event_endpoint_updated_topic_arn", "EventEndpointUpdated"),
   ("failure_feedback_role_arn", "FailureFeedbackRoleArn"),
   ("platform_principal", "PlatformPrincipal"),
   ("success_feedback_role_arn", "SuccessFeedbackRoleArn"),
   ("success_feedback_sample_rate", "SuccessFeedbackSampleRate")]

/-! ## The declared schema -/

/-- Flags of one `schema.Schema` entry of the resource's schema. -/
structure SchemaSpec where
  required : Bool := false
  optional : Bool := false
  computed : Bool := false
  forceNew : Bool := false
  hasStateFunc : Bool := false
deriving Repr, DecidableEq

/-- The `Schema` map of `resourceAwsSnsApplication`, in source order. -/
def resourceAwsSnsApplicationSchema : List (String × SchemaSpec) :=
  [("name", { required := true, forceNew := true }),
   ("platform", { required := true, forceNew := true }),
   ("platform_credential", { required := true, hasStateFunc := true }),
   ("arn", { computed := true }),
   ("event_delivery_failure_topic_arn", { optional := true }),
   ("event_endpoint_created_topic_arn", { optional := true }),
   ("event_endpoint_deleted_topic_arn", { optional := true }),
   ("event_endpoint_updated_topic_arn", { optional := true }),
   ("failure_feedback_role_arn", { optional := true }),
   ("platform_principal", { optional := true, hasStateFunc := true }),
   ("success_feedback_role_arn", { optional := true }),
   ("success_feedback_sample_rate", { optional := true })]

/-- Go `resource.Schema[k]` (`nil` becomes `none`). -/
def schemaLookup (k : String) : Option SchemaSpec :=
  (resourceAwsSnsApplicationSchema.find? (fun p => p.1 == k)).map (fun p => p.2)

/-- Go map read `SNSPlatformAppAttributeMap[k]` (`attrKey, ok := ...`). -/
def attributeMapLookup (k : String) : Option String :=
  SNSPlatformAppAttributeMap.getVal k

/-! ## The handler functions

Each remote SNS call is passed in as an oracle (`Except String` models the Go
`error` result); the handler returns the updated `ResourceData` together with
its own `error` result, and Delete additionally reports the list of
identifiers it issued deletion requests for. -/

/-- Loop body of Update's `for k := range resource.Schema` loop. -/
def updStep (d : ResourceData) (acc : SMap) (k : String) : SMap :=
  match attributeMapLookup k with
  | some attrKey => if d.hasChange k then acc.setVal attrKey (d.getAttr k) else acc
  | none => acc

/-- The key set of the resource schema, iterated by Update's loop. -/
def resourceSchemaKeys : List String :=
  resourceAwsSnsApplicationSchema.map (fun p => p.1)

/-- The outgoing attribute map Update builds before its remote call
(`resourceAwsSnsApplicationUpdate`, attribute-building part). -/
def snsUpdateAttributes (d : ResourceData) : SMap :=
  let attributes := resourceSchemaKeys.foldl (updStep d) []
  if d.hasChange "platform_credential" then
    let attributes :=
      attributes.setVal "PlatformCredential" (d.getAttr "platform_credential")
    match d.getOkAttr "platform_principal" with
    | some v => attributes.setVal "PlatformPrincipal" v
    | none => attributes
  else attributes

/-- The `sns.SetPlatformApplicationAttributesInput` request struct. -/
structure SetAttrRequest where
  platformApplicationArn : String
  attributes : SMap
deriving Repr, DecidableEq

/-- The `sns.CreatePlatformApplicationInput` request struct. -/
structure CreateAppRequest where
  name : String
  platform : String
  attributes : SMap
deriving Repr, DecidableEq

/-- Error text shared by Read's two malformed-identifier failures. -/
def malformedIdIntro : String :=
  "SNS Platform Application ID must be of the form " ++
    "arn:PARTITION:sns:REGION:ACCOUNTID:app/PLATFORM/NAME, "

/-- Read's error when `arn.Parse` fails (the parse error detail of the
external parser is modelled as an opaque trailing text). -/
def malformedIdParseMsg : String :=
  malformedIdIntro ++ "was provided \x22arn:::::\x22 and received error: arn: parse error"

/-- Read's error when the resource path is not `app/PLATFORM/NAME`. -/
def malformedIdPartsMsg (a : GoARN) : String :=
  malformedIdIntro ++ "was provided: " ++ arnToString a

/-- Loop body of Read's attribute-copying loop over
`SNSPlatformAppAttributeMap` (`p.1` = internal key, `p.2` = AWS key). -/
def copyStep (attrmap : SMap) (dd : ResourceData) (p : String × String) :
    ResourceData :=
  match attrmap.getVal p.2 with
  | some value => if (schemaLookup p.1).isSome then dd.setAttr p.1 value else dd
  | none => dd

/-- The attribute-copying phase of Read: for every entry of the attribute name
map whose remote name was fetched, write the corresponding local field if it
is a declared schema field; skip the loop entirely for an empty fetch. -/
def copyAttributes (attrmap : SMap) (d : ResourceData) : ResourceData :=
  if 0 < attrmap.length then SNSPlatformAppAttributeMap.foldl (copyStep attrmap) d
  else d

/-- Go `resourceAwsSnsApplicationRead`: parse the identifier, derive
`arn`/`name`/`platform` from it, fetch the remote attributes, and copy the
mapped ones into local state. -/
def resourceAwsSnsApplicationRead (d : ResourceData)
    (fetchRemote : String → Except String SMap) :
    ResourceData × Except String Unit :=
  match arnParse d.rid with
  | none => (d, Except.error malformedIdParseMsg)
  | some a =>
    let parts := splitChar '/' a.resource
    if parts.length != 3 || !(parts.getD 0 "" == "app") then
      (d, Except.error (malformedIdPartsMsg a))
    else
      let d1 := ((d.setAttr "arn" (arnToString a)).setAttr "name"
        (parts.getD 2 "")).setAttr "platform" (parts.getD 1 "")
      match fetchRemote (arnToString a) with
      | Except.error e => (d1, Except.error e)
      | Except.ok attrmap => (copyAttributes attrmap d1, Except.ok ())

/-- Go `resourceAwsSnsApplicationUpdate`: build the changed-attribute map,
issue one `SetPlatformApplicationAttributes` call, and on success re-Read. -/
def resourceAwsSnsApplicationUpdate (d : ResourceData)
    (setAttrsRemote : SetAttrRequest → Except String Unit)
    (fetchRemote : String → Except String SMap) :
    ResourceData × Except String Unit :=
  let req : SetAttrRequest :=
    { platformApplicationArn := d.rid, attributes := snsUpdateAttributes d }
  match setAttrsRemote req with
  | Except.error e => (d, Except.error ("Error updating SNS application: " ++ e))
  | Except.ok _ => resourceAwsSnsApplicationRead d fetchRemote

/-- The attribute map Create sends: always the credential, plus the principal
when one is set. -/
def snsCreateAttributes (d : ResourceData) : SMap :=
  let attributes :=
    SMap.setVal [] "PlatformCredential" (d.getAttr "platform_credential")
  match d.getOkAttr "platform_principal" with
  | some v => attributes.setVal "PlatformPrincipal" v
  | none => attributes

/-- The `CreatePlatformApplication` request Create builds. -/
def snsCreateRequest (d : ResourceData) : CreateAppRequest :=
  { name := d.getAttr "name", platform := d.getAttr "platform",
    attributes := snsCreateAttributes d }

/-- Go `resourceAwsSnsApplicationCreate`: issue the creation call, store the
returned identifier, then delegate to Update. -/
def resourceAwsSnsApplicationCreate (d : ResourceData)
    (createRemote : CreateAppRequest → Except String String)
    (setAttrsRemote : SetAttrRequest → Except String Unit)
    (fetchRemote : String → Except String SMap) :
    ResourceData × Except String Unit :=
  match createRemote (snsCreateRequest d) with
  | Except.error e => (d, Except.error ("Error creating SNS application: " ++ e))
  | Except.ok arnOut =>
    resourceAwsSnsApplicationUpdate (d.setId arnOut) setAttrsRemote fetchRemote

/-- Go `resourceAwsSnsApplicationDelete`: one `DeletePlatformApplication` call
for the resource identifier, its error returned as-is.  The first component
lists the identifiers deletion was requested for. -/
def resourceAwsSnsApplicationDelete (d : ResourceData)
    (deleteRemote : String → Except String Unit) :
    List String × Except String Unit :=
  match deleteRemote d.rid with
  | Except.error e => ([d.rid], Except.error e)
  | Except.ok _ => ([d.rid], Except.ok ())

/-- Go `validateAwsSnsPlatformApplication`: plan-time principal check. -/
def validateAwsSnsPlatformApplication (d : ResourceData) : Except String Unit :=
  let platform := d.getAttr "platform"
  if requiresPlatformPrincipal platform then
    match d.getOkAttr "platform_principal" with
    | some value =>
      if value.length == 0 then
        Except.error ("platform_principal must be non-empty when platform = " ++ platform)
      else Except.ok ()
    | none =>
      Except.error ("platform_principal is required when platform = " ++ platform)
  else Except.ok ()

/-! ## Map lemmas -/

theorem SMap.getVal_nil (k : String) : SMap.getVal [] k = none := rfl

theorem SMap.getVal_setVal (m : SMap) (a v k : String) :
    (m.setVal a v).getVal k = if k = a then some v else m.getVal k := by
  by_cases h : k = a
  · subst h
    simp [SMap.setVal, SMap.getVal, List.find?]
  · rw [if_neg h]
    have hak : (a == k) = false := by
      rw [beq_eq_false_iff_ne]
      exact fun hh => h hh.symm
    simp only [SMap.setVal, SMap.getVal, List.find?, hak]
    congr 1
    induction m with
    | nil => rfl
    | cons p rest ih =>
      cases hp : (p.1 == a) with
      | true =>
        have hpk : (p.1 == k) = false := by
          rw [beq_eq_false_iff_ne]
          intro hh
          exact h (by rw [← hh]; exact beq_iff_eq.mp hp)
        simp only [List.filter_cons, hp, Bool.not_true, if_neg Bool.false_ne_true,
          List.find?, hpk]
        exact ih
      | false =>
        cases hpk : (p.1 == k) with
        | true =>
          simp [List.filter_cons, hp, List.find?, hpk]
        | false =>
          simp only [List.filter_cons, hp, Bool.not_false, if_pos rfl,
            List.find?, hpk]
          exact ih

/-! ## Splitting lemmas -/

theorem splitCharList_ne_nil (c : Char) (l : List Char) : splitCharList c l ≠ [] := by
  cases l with
  | nil => simp [splitCharList]
  | cons x xs =>
    simp only [splitCharList]
    rcases h : splitCharList c xs with _ | ⟨y, ys⟩ <;> split <;> split <;> simp

theorem contains_append (c : Char) (a b : List Char) :
    (a ++ b).contains c = (a.contains c || b.contains c) := by
  simp [List.contains, List.any_append]

theorem splitCharList_of_not_contains (c : Char) (l : List Char)
    (h : l.contains c = false) : splitCharList c l = [l] := by
  induction l with
  | nil => rfl
  | cons x xs ih =>
    simp only [List.contains_cons, Bool.or_eq_false_iff] at h
    obtain ⟨hx, hxs⟩ := h
    have hx' : (x == c) = false := by
      rw [beq_eq_false_iff_ne] at hx ⊢
      exact fun hh => hx hh.symm
    simp [splitCharList, ih hxs, hx']

theorem splitCharList_append_sep (c : Char) (a b : List Char)
    (h : a.contains c = false) :
    splitCharList c (a ++ c :: b) = a :: splitCharList c b := by
  induction a with
  | nil =>
    simp only [List.nil_append, splitCharList]
    rcases hb : splitCharList c b with _ | ⟨y, ys⟩
    · exact absurd hb (splitCharList_ne_nil c b)
    · simp
  | cons x xs ih =>
    simp only [List.contains_cons, Bool.or_eq_false_iff] at h
    obtain ⟨hx, hxs⟩ := h
    have hx' : (x == c) = false := by
      rw [beq_eq_false_iff_ne] at hx ⊢
      exact fun hh => hx hh.symm
    simp [List.cons_append, splitCharList, List.append_eq, ih hxs, hx']

/-! ## Fold lemmas for the Update and Read loops -/

theorem getAttr_eq_getOk (d : ResourceData) (k : String) :
    d.getAttr k = (d.getOkAttr k).getD "" := rfl

theorem getOkAttr_setAttr (d : ResourceData) (k v t : String) :
    (d.setAttr k v).getOkAttr t = if t = k then some v else d.getOkAttr t := by
  simp only [ResourceData.setAttr, ResourceData.getOkAttr]
  exact SMap.getVal_setVal d.config k v t

theorem foldl_updStep_not_touched (d : ResourceData) (t : String) :
    ∀ (keys : List String) (acc : SMap),
    (∀ k ∈ keys, attributeMapLookup k ≠ some t) →
    SMap.getVal (keys.foldl (updStep d) acc) t = acc.getVal t := by
  intro keys
  induction keys with
  | nil => intro acc _; rfl
  | cons k ks ih =>
    intro acc h
    rw [List.foldl_cons, ih _ (fun k' hk' => h k' (List.mem_cons_of_mem _ hk'))]
    have hne := h k (List.mem_cons_self _ _)
    rcases hm : attributeMapLookup k with _ | ak
    · simp [updStep, hm]
    · have hak : ak ≠ t := fun hh => hne (by rw [hm, hh])
      cases hc : d.hasChange k with
      | false => simp [updStep, hm, hc]
      | true =>
        simp only [updStep, hm, hc, if_true]
        rw [SMap.getVal_setVal, if_neg (fun hh => hak hh.symm)]

theorem foldl_updStep_split (d : ResourceData) (t k : String)
    (l1 l2 : List String) (acc : SMap)
    (h1 : ∀ k' ∈ l1, attributeMapLookup k' ≠ some t)
    (h2 : ∀ k' ∈ l2, attributeMapLookup k' ≠ some t)
    (hk : attributeMapLookup k = some t) :
    SMap.getVal ((l1 ++ k :: l2).foldl (updStep d) acc) t =
      if d.hasChange k then some (d.getAttr k) else acc.getVal t := by
  rw [List.foldl_append, List.foldl_cons, foldl_updStep_not_touched d t l2 _ h2]
  cases hc : d.hasChange k with
  | false =>
    simp only [updStep, hk, hc, if_neg Bool.false_ne_true]
    exact foldl_updStep_not_touched d t l1 acc h1
  | true =>
    simp only [updStep, hk, hc, if_true]
    rw [SMap.getVal_setVal, if_pos rfl]

theorem foldl_copyStep_rid (attrmap : SMap) :
    ∀ (entries : List (String × String)) (d : ResourceData),
    (entries.foldl (copyStep attrmap) d).rid = d.rid := by
  intro entries
  induction entries with
  | nil => intro d; rfl
  | cons p ps ih =>
    intro d
    rw [List.foldl_cons, ih]
    rcases hv : attrmap.getVal p.2 with _ | v
    · simp [copyStep, hv]
    · simp only [copyStep, hv]
      split <;> rfl

theorem foldl_copyStep_prior (attrmap : SMap) :
    ∀ (entries : List (String × String)) (d : ResourceData),
    (entries.foldl (copyStep attrmap) d).prior = d.prior := by
  intro entries
  induction entries with
  | nil => intro d; rfl
  | cons p ps ih =>
    intro d
    rw [List.foldl_cons, ih]
    rcases hv : attrmap.getVal p.2 with _ | v
    · simp [copyStep, hv]
    · simp only [copyStep, hv]
      split <;> rfl

theorem foldl_copyStep_not_touched (attrmap : SMap) (t : String) :
    ∀ (entries : List (String × String)) (d : ResourceData),
    (∀ p ∈ entries, p.1 ≠ t) →
    (entries.foldl (copyStep attrmap) d).getOkAttr t = d.getOkAttr t := by
  intro entries
  induction entries with
  | nil => intro d _; rfl
  | cons p ps ih =>
    intro d h
    rw [List.foldl_cons, ih _ (fun p' hp' => h p' (List.mem_cons_of_mem _ hp'))]
    have hne := h p (List.mem_cons_self _ _)
    rcases hv : attrmap.getVal p.2 with _ | v
    · simp [copyStep, hv]
    · cases hs : (schemaLookup p.1).isSome with
      | false => simp [copyStep, hv, hs]
      | true =>
        simp only [copyStep, hv, hs, if_true]
        rw [getOkAttr_setAttr, if_neg (fun hh => hne hh.symm)]

theorem foldl_copyStep_split (attrmap : SMap) (t rk : String)
    (l1 l2 : List (String × String)) (d : ResourceData)
    (h1 : ∀ p ∈ l1, p.1 ≠ t) (h2 : ∀ p ∈ l2, p.1 ≠ t) :
    ((l1 ++ (t, rk) :: l2).foldl (copyStep attrmap) d).getOkAttr t =
      (match attrmap.getVal rk with
       | some v => if (schemaLookup t).isSome then some v else d.getOkAttr t
       | none => d.getOkAttr t) := by
  rw [List.foldl_append, List.foldl_cons, foldl_copyStep_not_touched attrmap t l2 _ h2]
  rcases hv : attrmap.getVal rk with _ | v
  · simp only [copyStep, hv]
    exact foldl_copyStep_not_touched attrmap t l1 d h1
  · cases hs : (schemaLookup t).isSome with
    | false =>
      simp only [copyStep, hv, hs, if_neg Bool.false_ne_true]
      exact foldl_copyStep_not_touched attrmap t l1 d h1
    | true =>
      simp only [copyStep, hv, hs, if_true]
      rw [getOkAttr_setAttr, if_pos rfl]

/-! ## Splitting a well-formed identifier -/

theorem splitCharList_cons_of_ne (c x : Char) (xs : List Char) (h : (x == c) = false) :
    splitCharList c (x :: xs) =
      (x :: (splitCharList c xs).headD []) :: (splitCharList c xs).tail := by
  simp only [splitCharList]
  rcases hb : splitCharList c xs with _ | ⟨y, ys⟩
  · exact absurd hb (splitCharList_ne_nil c xs)
  · simp [h]

theorem splitCharList_cons_sep (c : Char) (xs : List Char) :
    splitCharList c (c :: xs) = [] :: splitCharList c xs := by
  simp only [splitCharList]
  rcases hb : splitCharList c xs with _ | ⟨y, ys⟩
  · exact absurd hb (splitCharList_ne_nil c xs)
  · simp

theorem isPrefixOf_append_self (l t : List Char) :
    List.isPrefixOf l (l ++ t) = true := by
  induction l with
  | nil => simp [List.isPrefixOf]
  | cons x xs ih => simp [List.isPrefixOf, ih]

theorem splitChar_colon_arn (P R A PL NM : String)
    (hP : strHasChar P ':' = false) (hR : strHasChar R ':' = false)
    (hA : strHasChar A ':' = false) (hPL : strHasChar PL ':' = false)
    (hNM : strHasChar NM ':' = false) :
    splitChar ':' ("arn:" ++ P ++ ":sns:" ++ R ++ ":" ++ A ++ ":app/" ++ PL ++ "/" ++ NM)
      = ["arn", P, "sns", R, A, "app/" ++ PL ++ "/" ++ NM] := by
  have hP' : P.data.contains ':' = false := hP
  have hR' : R.data.contains ':' = false := hR
  have hA' : A.data.contains ':' = false := hA
  have hPL' : PL.data.contains ':' = false := hPL
  have hNM' : NM.data.contains ':' = false := hNM
  have d1 : ("arn:" : String).data = ['a', 'r', 'n', ':'] := rfl
  have d2 : (":sns:" : String).data = [':', 's', 'n', 's', ':'] := rfl
  have d3 : (":" : String).data = [':'] := rfl
  have d4 : (":app/" : String).data = [':', 'a', 'p', 'p', '/'] := rfl
  have d5 : ("/" : String).data = ['/'] := rfl
  have hres : ('a' :: 'p' :: 'p' :: '/' :: (PL.data ++ '/' :: NM.data)).contains ':'
      = false := by
    simp [List.contains_cons, contains_append]
    exact ⟨by simpa using hPL', by simpa using hNM'⟩
  have hresStr : ("app/" ++ PL ++ "/" ++ NM : String) =
      ⟨'a' :: 'p' :: 'p' :: '/' :: (PL.data ++ '/' :: NM.data)⟩ := by
    apply String.ext
    simp [String.data_append]
  simp only [splitChar, String.data_append, d1, d2, d3, d4, d5,
    List.cons_append, List.nil_append, List.append_assoc]
  rw [splitCharList_cons_of_ne ':' 'a' _ (by decide),
    splitCharList_cons_of_ne ':' 'r' _ (by decide),
    splitCharList_cons_of_ne ':' 'n' _ (by decide),
    splitCharList_cons_sep,
    splitCharList_append_sep ':' P.data _ hP',
    splitCharList_cons_of_ne ':' 's' _ (by decide),
    splitCharList_cons_of_ne ':' 'n' _ (by decide),
    splitCharList_cons_of_ne ':' 's' _ (by decide),
    splitCharList_cons_sep,
    splitCharList_append_sep ':' R.data _ hR',
    splitCharList_append_sep ':' A.data _ hA',
    splitCharList_of_not_contains ':' _ hres]
  simp [hresStr]

theorem splitChar_slash_resource (PL NM : String)
    (hPL : strHasChar PL '/' = false) (hNM : strHasChar NM '/' = false) :
    splitChar '/' ("app/" ++ PL ++ "/" ++ NM) = ["app", PL, NM] := by
  have hPL' : PL.data.contains '/' = false := hPL
  have hNM' : NM.data.contains '/' = false := hNM
  have hd : ("app/" ++ PL ++ "/" ++ NM : String).data =
      'a' :: 'p' :: 'p' :: '/' :: (PL.data ++ '/' :: NM.data) := by
    simp [String.data_append]
  simp only [splitChar, hd]
  rw [splitCharList_cons_of_ne '/' 'a' _ (by decide),
    splitCharList_cons_of_ne '/' 'p' _ (by decide),
    splitCharList_cons_of_ne '/' 'p' _ (by decide),
    splitCharList_cons_sep,
    splitCharList_append_sep '/' PL.data _ hPL',
    splitCharList_of_not_contains '/' _ hNM']
  simp

theorem arnParse_wellFormed (P R A PL NM : String)
    (hP : strHasChar P ':' = false) (hR : strHasChar R ':' = false)
    (hA : strHasChar A ':' = false) (hPL : strHasChar PL ':' = false)
    (hNM : strHasChar NM ':' = false) :
    arnParse ("arn:" ++ P ++ ":sns:" ++ R ++ ":" ++ A ++ ":app/" ++ PL ++ "/" ++ NM)
      = some (GoARN.mk P "sns" R A ("app/" ++ PL ++ "/" ++ NM)) := by
  have hsplit := splitChar_colon_arn P R A PL NM hP hR hA hPL hNM
  have hpre : List.isPrefixOf ['a', 'r', 'n', ':']
      ("arn:" ++ P ++ ":sns:" ++ R ++ ":" ++ A ++ ":app/" ++ PL ++ "/" ++ NM).data
        = true := by
    have hd : ("arn:" ++ P ++ ":sns:" ++ R ++ ":" ++ A ++ ":app/" ++ PL ++ "/" ++ NM
        : String).data =
        ['a', 'r', 'n', ':'] ++
          (P ++ ":sns:" ++ R ++ ":" ++ A ++ ":app/" ++ PL ++ "/" ++ NM : String).data := by
      simp [String.data_append]
    rw [hd]
    exact isPrefixOf_append_self _ _
  simp [arnParse, splitNChar, hsplit, hpre]

/-! ## Helpers for the claim theorems -/

/-- Whether `t` is a leading piece of `s` (used to recognise the shared text of
Read's malformed-identifier errors). -/
def strStarts (s t : String) : Bool :=
  List.isPrefixOf t.data s.data

theorem isPrefixOf_append_of_isPrefixOf (p : List Char) :
    ∀ (a t : List Char), List.isPrefixOf p a = true →
    List.isPrefixOf p (a ++ t) = true := by
  induction p with
  | nil => intro a t _; simp [List.isPrefixOf]
  | cons x xs ih =>
    intro a t h
    cases a with
    | nil => simp [List.isPrefixOf] at h
    | cons y ys =>
      simp only [List.isPrefixOf, Bool.and_eq_true] at h
      simp only [List.cons_append, List.isPrefixOf, Bool.and_eq_true]
      exact ⟨h.1, ih ys t h.2⟩

theorem copyAttributes_preserves (attrmap : SMap) (d : ResourceData) (t : String)
    (h : ∀ p ∈ SNSPlatformAppAttributeMap, p.1 ≠ t) :
    (copyAttributes attrmap d).getOkAttr t = d.getOkAttr t := by
  unfold copyAttributes
  split
  · exact foldl_copyStep_not_touched attrmap t _ d h
  · rfl

theorem SMap.getVal_mem (m : SMap) (k v : String) (h : m.getVal k = some v) :
    (k, v) ∈ m := by
  induction m with
  | nil => simp [SMap.getVal] at h
  | cons p rest ih =>
    rcases hp : (p.1 == k) with _ | _
    · simp only [SMap.getVal, List.find?, hp] at h
      exact List.mem_cons_of_mem _ (ih h)
    · simp only [SMap.getVal, List.find?, hp, Option.map_some] at h
      have h1 : p.1 = k := beq_iff_eq.mp hp
      have h2 : p.2 = v := by simpa using h
      exact List.mem_cons.mpr (Or.inl (by rw [← h1, ← h2]))

theorem updStep_getVal_ne (d : ResourceData) (acc : SMap) (k t : String)
    (h : attributeMapLookup k ≠ some t) :
    SMap.getVal (updStep d acc k) t = acc.getVal t := by
  rcases hm : attributeMapLookup k with _ | ak
  · simp [updStep, hm]
  · have hak : ak ≠ t := fun hh => h (by rw [hm, hh])
    cases hc : d.hasChange k with
    | false => simp [updStep, hm, hc]
    | true =>
      simp only [updStep, hm, hc, if_true]
      rw [SMap.getVal_setVal, if_neg (fun hh => hak hh.symm)]

theorem foldl_updStep_mem (d : ResourceData) :
    ∀ (keys : List String) (acc : SMap) (k t : String),
    k ∈ keys → keys.Nodup → attributeMapLookup k = some t →
    (∀ k' ∈ keys, k' ≠ k → attributeMapLookup k' ≠ some t) →
    SMap.getVal (keys.foldl (updStep d) acc) t =
      if d.hasChange k then some (d.getAttr k) else acc.getVal t := by
  intro keys
  induction keys with
  | nil => intro acc k t hk _ _ _; cases hk
  | cons q qs ih =>
    intro acc k t hk hnd hlk hothers
    have hnd' := List.nodup_cons.mp hnd
    rcases List.mem_cons.mp hk with rfl | hk'
    · rw [List.foldl_cons,
        foldl_updStep_not_touched d t qs _
          (fun k' hk' => hothers k' (List.mem_cons_of_mem _ hk')
            (fun hh => hnd'.1 (hh ▸ hk')))]
      cases hc : d.hasChange k with
      | false => simp [updStep, hlk, hc]
      | true =>
        simp only [updStep, hlk, hc, if_true]
        rw [SMap.getVal_setVal, if_pos rfl]
    · have hqk : q ≠ k := fun hh => hnd'.1 (hh ▸ hk')
      rw [List.foldl_cons,
        ih _ k t hk' hnd'.2 hlk
          (fun k' hk'' hne => hothers k' (List.mem_cons_of_mem _ hk'') hne),
        updStep_getVal_ne d acc q t
          (hothers q (List.mem_cons_self _ _) hqk)]

theorem copyStep_getOk_ne (attrmap : SMap) (d : ResourceData)
    (q : String × String) (t : String) (h : q.1 ≠ t) :
    (copyStep attrmap d q).getOkAttr t = d.getOkAttr t := by
  rcases hv : attrmap.getVal q.2 with _ | v
  · simp [copyStep, hv]
  · cases hs : (schemaLookup q.1).isSome with
    | false => simp [copyStep, hv, hs]
    | true =>
      simp only [copyStep, hv, hs, if_true]
      rw [getOkAttr_setAttr, if_neg (fun hh => h hh.symm)]

theorem foldl_copyStep_mem (attrmap : SMap) :
    ∀ (entries : List (String × String)) (d : ResourceData) (p : String × String),
    p ∈ entries → (entries.map (fun q => q.1)).Nodup →
    (entries.foldl (copyStep attrmap) d).getOkAttr p.1 =
      (match attrmap.getVal p.2 with
       | some v => if (schemaLookup p.1).isSome then some v else d.getOkAttr p.1
       | none => d.getOkAttr p.1) := by
  intro entries
  induction entries with
  | nil => intro d p hp _; cases hp
  | cons q qs ih =>
    intro d p hp hnd
    rw [List.map_cons, List.nodup_cons] at hnd
    rcases List.mem_cons.mp hp with rfl | hp'
    · rw [List.foldl_cons,
        foldl_copyStep_not_touched attrmap p.1 qs _
          (fun r hr hh => hnd.1 (List.mem_map.mpr ⟨r, hr, hh⟩))]
      rcases hv : attrmap.getVal p.2 with _ | v
      · simp [copyStep, hv]
      · cases hs : (schemaLookup p.1).isSome with
        | false => simp [copyStep, hv, hs]
        | true =>
          simp only [copyStep, hv, hs, if_true]
          rw [getOkAttr_setAttr, if_pos rfl]
    · have hqp : q.1 ≠ p.1 :=
        fun hh => hnd.1 (List.mem_map.mpr ⟨p, hp', hh.symm⟩)
      rw [List.foldl_cons, ih _ p hp' hnd.2,
        copyStep_getOk_ne attrmap d q p.1 hqp]

theorem snsUpdateAttributes_getVal (d : ResourceData) (t : String) :
    (snsUpdateAttributes d).getVal t =
      (if d.hasChange "platform_credential" then
        (match d.getOkAttr "platform_principal" with
         | some v =>
            if t = "PlatformPrincipal" then some v
            else if t = "PlatformCredential" then
              some (d.getAttr "platform_credential")
            else SMap.getVal (resourceSchemaKeys.foldl (updStep d) []) t
         | none =>
            if t = "PlatformCredential" then
              some (d.getAttr "platform_credential")
            else SMap.getVal (resourceSchemaKeys.foldl (updStep d) []) t)
      else SMap.getVal (resourceSchemaKeys.foldl (updStep d) []) t) := by
  unfold snsUpdateAttributes
  cases hc : d.hasChange "platform_credential" with
  | false => simp [hc]
  | true =>
    rcases hp : d.getOkAttr "platform_principal" with _ | v
    · simp only [hc, hp, if_true]
      rw [SMap.getVal_setVal]
    · simp only [hc, hp, if_true]
      rw [SMap.getVal_setVal, SMap.getVal_setVal]

/-! ## Claim theorems -/

/-- C1: for every identifier of the form
`arn:PARTITION:sns:REGION:ACCOUNTID:app/PLATFORM/NAME`, Read sets the local
`platform` field to PLATFORM and the local `name` field to NAME; and for every
identifier that does not parse as a structured 5-part address, or whose
resource path does not consist of exactly three `/`-separated segments with
the first segment literally `app`, Read fails with the malformed-identifier
error and leaves the state untouched. -/
theorem read_parses_identifier :
    (∀ (d : ResourceData) (fr : String → Except String SMap) (P R A PL NM : String),
      strHasChar P ':' = false → strHasChar R ':' = false → strHasChar A ':' = false →
      strHasChar PL ':' = false → strHasChar NM ':' = false →
      strHasChar PL '/' = false → strHasChar NM '/' = false →
      d.rid = "arn:" ++ P ++ ":sns:" ++ R ++ ":" ++ A ++ ":app/" ++ PL ++ "/" ++ NM →
      (resourceAwsSnsApplicationRead d fr).1.getAttr "platform" = PL ∧
      (resourceAwsSnsApplicationRead d fr).1.getAttr "name" = NM) ∧
    (∀ (d : ResourceData) (fr : String → Except String SMap),
      (arnParse d.rid = none ∨
        ∃ a, arnParse d.rid = some a ∧
          ¬((splitChar '/' a.resource).length = 3 ∧
            (splitChar '/' a.resource).getD 0 "" = "app")) →
      ∃ e, resourceAwsSnsApplicationRead d fr = (d, Except.error e) ∧
        strStarts e "SNS Platform Application ID must be of the form" = true) := by
  constructor
  · intro d fr P R A PL NM hP hR hA hPL hNM hPL2 hNM2 hrid
    have hparse : arnParse d.rid =
        some (GoARN.mk P "sns" R A ("app/" ++ PL ++ "/" ++ NM)) := by
      rw [hrid]
      exact arnParse_wellFormed P R A PL NM hP hR hA hPL hNM
    have hparts : splitChar '/' ("app/" ++ PL ++ "/" ++ NM) = ["app", PL, NM] :=
      splitChar_slash_resource PL NM hPL2 hNM2
    simp only [resourceAwsSnsApplicationRead, hparse, hparts]
    simp only [List.length_cons, List.length_nil, List.getD]
    norm_num
    rcases hf : fr (arnToString (GoARN.mk P "sns" R A ("app/" ++ PL ++ "/" ++ NM)))
      with e | m
    · constructor
      · rw [getAttr_eq_getOk, getOkAttr_setAttr, if_pos rfl]
        rfl
      · rw [getAttr_eq_getOk, getOkAttr_setAttr, if_neg (by decide),
          getOkAttr_setAttr, if_pos rfl]
        rfl
    · constructor
      · rw [getAttr_eq_getOk, copyAttributes_preserves _ _ _ (by decide),
          getOkAttr_setAttr, if_pos rfl]
        rfl
      · rw [getAttr_eq_getOk, copyAttributes_preserves _ _ _ (by decide),
          getOkAttr_setAttr, if_neg (by decide), getOkAttr_setAttr, if_pos rfl]
        rfl
  · intro d fr h
    rcases h with hnone | ⟨a, ha, hbad⟩
    · refine ⟨malformedIdParseMsg, ?_, ?_⟩
      · simp [resourceAwsSnsApplicationRead, hnone]
      · decide
    · have hguard : ((splitChar '/' a.resource).length != 3 ||
          !((splitChar '/' a.resource).getD 0 "" == "app")) = true := by
        by_cases h3 : (splitChar '/' a.resource).length = 3
        · have hne : ((splitChar '/' a.resource).getD 0 "" == "app") = false := by
            rw [beq_eq_false_iff_ne]
            exact fun hh => hbad ⟨h3, hh⟩
          rw [hne]
          simp
        · have hlen : ((splitChar '/' a.resource).length != 3) = true := by
            rw [bne_iff_ne]
            exact h3
          rw [hlen]
          simp
      refine ⟨malformedIdPartsMsg a, ?_, ?_⟩
      · simp only [resourceAwsSnsApplicationRead, ha]
        rw [hguard]
        simp
      · unfold malformedIdPartsMsg strStarts
        rw [String.data_append]
        exact isPrefixOf_append_of_isPrefixOf _ _ _ (by decide)

/-- Witness for C1: a well-formed GCM identifier yields `platform = GCM`,
`name = app1`, and a `invalid/GCM/app1` resource path fails with the
malformed-identifier error. -/
theorem read_parses_identifier_witness :
    ((resourceAwsSnsApplicationRead
        (ResourceData.mk "arn:aws:sns:us-east-1:123456789012:app/GCM/app1" [] [])
        (fun _ => Except.ok [])).1.getAttr "platform" = "GCM" ∧
     (resourceAwsSnsApplicationRead
        (ResourceData.mk "arn:aws:sns:us-east-1:123456789012:app/GCM/app1" [] [])
        (fun _ => Except.ok [])).1.getAttr "name" = "app1") ∧
    (∃ e, resourceAwsSnsApplicationRead
        (ResourceData.mk "arn:aws:sns:us-east-1:123456789012:invalid/GCM/app1" [] [])
        (fun _ => Except.ok []) =
        (ResourceData.mk "arn:aws:sns:us-east-1:123456789012:invalid/GCM/app1" [] [],
          Except.error e) ∧
      strStarts e "SNS Platform Application ID must be of the form" = true) :=
  ⟨read_parses_identifier.1
      (ResourceData.mk "arn:aws:sns:us-east-1:123456789012:app/GCM/app1" [] [])
      (fun _ => Except.ok []) "aws" "us-east-1" "123456789012" "GCM" "app1"
      (by decide) (by decide) (by decide) (by decide) (by decide) (by decide)
      (by decide) (by decide),
    read_parses_identifier.2
      (ResourceData.mk "arn:aws:sns:us-east-1:123456789012:invalid/GCM/app1" [] [])
      (fun _ => Except.ok [])
      (Or.inr ⟨GoARN.mk "aws" "sns" "us-east-1" "123456789012" "invalid/GCM/app1",
        by decide, by decide⟩)⟩

/-- C2: the outgoing attribute map of Update contains, for each entry of the
attribute name map, the new value under the remote-side name exactly when the
field changed; whenever `platform_credential` changed the map additionally
contains `PlatformCredential`, and also `PlatformPrincipal` whenever a
principal value is set, regardless of whether the principal changed; no other
key is ever present; and the scenario changing only
`success_feedback_sample_rate` from `50` to `100` produces exactly the map
with the single entry `SuccessFeedbackSampleRate = 100`. -/
theorem update_outgoing_attributes :
    (∀ (d : ResourceData) (p : String × String), p ∈ SNSPlatformAppAttributeMap →
      p.1 ≠ "platform_principal" →
      (snsUpdateAttributes d).getVal p.2 =
        (if d.hasChange p.1 then some (d.getAttr p.1) else none)) ∧
    (∀ d : ResourceData,
      (snsUpdateAttributes d).getVal "PlatformCredential" =
        (if d.hasChange "platform_credential" then
          some (d.getAttr "platform_credential") else none)) ∧
    (∀ d : ResourceData,
      (snsUpdateAttributes d).getVal "PlatformPrincipal" =
        (if (d.hasChange "platform_principal" ||
             (d.hasChange "platform_credential" &&
               (d.getOkAttr "platform_principal").isSome))
         then some (d.getAttr "platform_principal") else none)) ∧
    (∀ (d : ResourceData) (t : String),
      (∀ p ∈ SNSPlatformAppAttributeMap, p.2 ≠ t) → t ≠ "PlatformCredential" →
      (snsUpdateAttributes d).getVal t = none) ∧
    (snsUpdateAttributes (ResourceData.mk "x"
        [("name", "app1"), ("platform", "GCM"), ("platform_credential", "cred"),
         ("success_feedback_sample_rate", "50")]
        [("name", "app1"), ("platform", "GCM"), ("platform_credential", "cred"),
         ("success_feedback_sample_rate", "100")])
      = [("SuccessFeedbackSampleRate", "100")]) := by
  refine ⟨?_, ?_, ?_, ?_, by decide⟩
  · intro d p hp hne
    have hkmem : p.1 ∈ resourceSchemaKeys :=
      (by decide : ∀ q ∈ SNSPlatformAppAttributeMap, q.1 ∈ resourceSchemaKeys) p hp
    have hlk : attributeMapLookup p.1 = some p.2 :=
      (by decide : ∀ q ∈ SNSPlatformAppAttributeMap,
        attributeMapLookup q.1 = some q.2) p hp
    have hoth : ∀ k' ∈ resourceSchemaKeys, k' ≠ p.1 →
        attributeMapLookup k' ≠ some p.2 :=
      (by decide : ∀ q ∈ SNSPlatformAppAttributeMap, ∀ k' ∈ resourceSchemaKeys,
        k' ≠ q.1 → attributeMapLookup k' ≠ some q.2) p hp
    have hloop := foldl_updStep_mem d resourceSchemaKeys [] p.1 p.2
      hkmem (by decide) hlk hoth
    have hcred : p.2 ≠ "PlatformCredential" :=
      (by decide : ∀ q ∈ SNSPlatformAppAttributeMap,
        q.2 ≠ "PlatformCredential") p hp
    have hprin : p.2 ≠ "PlatformPrincipal" :=
      (by decide : ∀ q ∈ SNSPlatformAppAttributeMap,
        q.1 ≠ "platform_principal" → q.2 ≠ "PlatformPrincipal") p hp hne
    rw [snsUpdateAttributes_getVal, hloop]
    cases hc : d.hasChange "platform_credential" with
    | false => simp [SMap.getVal_nil]
    | true =>
      rcases hp2 : d.getOkAttr "platform_principal" with _ | v <;>
        simp [hprin, hcred, SMap.getVal_nil]
  · intro d
    have hloop := foldl_updStep_not_touched d "PlatformCredential"
      resourceSchemaKeys []
      (by decide : ∀ k' ∈ resourceSchemaKeys,
        attributeMapLookup k' ≠ some "PlatformCredential")
    rw [snsUpdateAttributes_getVal, hloop]
    cases hc : d.hasChange "platform_credential" with
    | false => simp [hc, SMap.getVal_nil]
    | true =>
      rcases hp2 : d.getOkAttr "platform_principal" with _ | v <;>
        simp [hc, SMap.getVal_nil]
  · intro d
    have hloop := foldl_updStep_mem d resourceSchemaKeys []
      "platform_principal" "PlatformPrincipal"
      (by decide) (by decide) (by decide)
      (by decide : ∀ k' ∈ resourceSchemaKeys, k' ≠ "platform_principal" →
        attributeMapLookup k' ≠ some "PlatformPrincipal")
    rw [snsUpdateAttributes_getVal, hloop]
    cases hc : d.hasChange "platform_credential" with
    | false => simp [hc, SMap.getVal_nil]
    | true =>
      rcases hp2 : d.getOkAttr "platform_principal" with _ | v
      · simp [hc, hp2, SMap.getVal_nil]
      · simp [hc, hp2, getAttr_eq_getOk, SMap.getVal_nil]
  · intro d t hvals hcred
    have hnp : ∀ k' ∈ resourceSchemaKeys, attributeMapLookup k' ≠ some t := by
      intro k' _ hsome
      exact hvals (k', t) (SMap.getVal_mem _ _ _ hsome) rfl
    have hloop := foldl_updStep_not_touched d t resourceSchemaKeys [] hnp
    have hPP : t ≠ "PlatformPrincipal" :=
      fun hh => hvals ("platform_principal", "PlatformPrincipal")
        (by decide) (by rw [hh])
    rw [snsUpdateAttributes_getVal, hloop]
    cases hc : d.hasChange "platform_credential" with
    | false => rfl
    | true =>
      rcases hp2 : d.getOkAttr "platform_principal" with _ | v <;>
        simp [hPP, hcred, SMap.getVal_nil]

/-- Witness for C2: at the scenario input, the mapped key holds the new value
and an unmapped remote key is absent. -/
theorem update_outgoing_attributes_witness :
    (snsUpdateAttributes (ResourceData.mk "x"
        [("success_feedback_sample_rate", "50")]
        [("success_feedback_sample_rate", "100")])).getVal
      "SuccessFeedbackSampleRate" = some "100" ∧
    (snsUpdateAttributes (ResourceData.mk "x"
        [("success_feedback_sample_rate", "50")]
        [("success_feedback_sample_rate", "100")])).getVal
      "SubscriptionsConfirmed" = none := by
  constructor
  · have h := update_outgoing_attributes.1
      (ResourceData.mk "x" [("success_feedback_sample_rate", "50")]
        [("success_feedback_sample_rate", "100")])
      ("success_feedback_sample_rate", "SuccessFeedbackSampleRate")
      (by decide) (by decide)
    exact h.trans (by decide)
  · exact update_outgoing_attributes.2.2.2.1
      (ResourceData.mk "x" [("success_feedback_sample_rate", "50")]
        [("success_feedback_sample_rate", "100")])
      "SubscriptionsConfirmed" (by decide) (by decide)

/-- C3: for platforms in the principal-required set, Validate fails with the
missing-principal error when `platform_principal` is absent, fails with the
empty-principal error when it is present but empty, and passes otherwise; for
every other platform Validate passes regardless of the principal. -/
theorem validate_principal_rules (d : ResourceData) :
    (requiresPlatformPrincipal (d.getAttr "platform") = true →
      (d.getOkAttr "platform_principal" = none →
        validateAwsSnsPlatformApplication d = Except.error
          ("platform_principal is required when platform = " ++
            d.getAttr "platform")) ∧
      (d.getOkAttr "platform_principal" = some "" →
        validateAwsSnsPlatformApplication d = Except.error
          ("platform_principal must be non-empty when platform = " ++
            d.getAttr "platform")) ∧
      (∀ v, d.getOkAttr "platform_principal" = some v → v ≠ "" →
        validateAwsSnsPlatformApplication d = Except.ok ())) ∧
    (requiresPlatformPrincipal (d.getAttr "platform") = false →
      validateAwsSnsPlatformApplication d = Except.ok ()) := by
  constructor
  · intro hreq
    refine ⟨?_, ?_, ?_⟩
    · intro hnone
      simp [validateAwsSnsPlatformApplication, hreq, hnone]
    · intro hempty
      simp [validateAwsSnsPlatformApplication, hreq, hempty]
    · intro v hv hne
      have hvl : (v.length == 0) = false := by
        rw [beq_eq_false_iff_ne]
        intro hh
        have h0 : v.data = [] := List.length_eq_zero.mp hh
        exact hne (String.ext h0)
      simp [validateAwsSnsPlatformApplication, hreq, hv, hvl]
  · intro hreq
    simp [validateAwsSnsPlatformApplication, hreq]

/-- Witness for C3: the four outcomes at concrete APNS/GCM configurations. -/
theorem validate_principal_rules_witness :
    validateAwsSnsPlatformApplication
      (ResourceData.mk "" [] [("platform", "APNS")]) =
      Except.error "platform_principal is required when platform = APNS" ∧
    validateAwsSnsPlatformApplication
      (ResourceData.mk "" [] [("platform", "APNS"), ("platform_principal", "")]) =
      Except.error "platform_principal must be non-empty when platform = APNS" ∧
    validateAwsSnsPlatformApplication
      (ResourceData.mk "" [] [("platform", "APNS"), ("platform_principal", "cert")]) =
      Except.ok () ∧
    validateAwsSnsPlatformApplication
      (ResourceData.mk "" [] [("platform", "GCM")]) = Except.ok () := by
  refine ⟨?_, ?_, ?_, ?_⟩
  · exact ((validate_principal_rules _).1 (by decide)).1 (by decide)
  · exact ((validate_principal_rules _).1 (by decide)).2.1 (by decide)
  · exact ((validate_principal_rules _).1 (by decide)).2.2 "cert" (by decide)
      (by decide)
  · exact (validate_principal_rules _).2 (by decide)

/-- C9: the principal-required set contains exactly `APNS` and `APNS_SANDBOX`;
Validate always passes for platforms outside the set and enforces the
requirement for platforms in it. -/
theorem principal_required_set_exact :
    (∀ p, requiresPlatformPrincipal p = true ↔ (p = "APNS" ∨ p = "APNS_SANDBOX")) ∧
    (∀ d : ResourceData, requiresPlatformPrincipal (d.getAttr "platform") = false →
      validateAwsSnsPlatformApplication d = Except.ok ()) ∧
    (∀ d : ResourceData,
      requiresPlatformPrincipal (d.getAttr "platform") = true →
      d.getOkAttr "platform_principal" = none →
      validateAwsSnsPlatformApplication d = Except.error
        ("platform_principal is required when platform = " ++
          d.getAttr "platform")) := by
  refine ⟨?_, ?_, ?_⟩
  · intro p
    by_cases h1 : p = "APNS"
    · simp [requiresPlatformPrincipal, snsPlatformRequiresPlatformPrincipal,
        List.find?, h1]
    · by_cases h2 : p = "APNS_SANDBOX"
      · simp [requiresPlatformPrincipal, snsPlatformRequiresPlatformPrincipal,
          List.find?, h1, h2]
      · have b1 : (("APNS" : String) == p) = false := by
          rw [beq_eq_false_iff_ne]
          exact fun hh => h1 hh.symm
        have b2 : (("APNS_SANDBOX" : String) == p) = false := by
          rw [beq_eq_false_iff_ne]
          exact fun hh => h2 hh.symm
        simp [requiresPlatformPrincipal, snsPlatformRequiresPlatformPrincipal,
          List.find?, b1, b2, h1, h2]
  · intro d h
    simp [validateAwsSnsPlatformApplication, h]
  · intro d hreq hnone
    simp [validateAwsSnsPlatformApplication, hreq, hnone]

/-- Witness for C9: `GCM` is outside the set, `ADM` passes with no principal,
and `APNS_SANDBOX` with no principal fails. -/
theorem principal_required_set_exact_witness :
    requiresPlatformPrincipal "GCM" = false ∧
    validateAwsSnsPlatformApplication
      (ResourceData.mk "" [] [("platform", "ADM")]) = Except.ok () ∧
    validateAwsSnsPlatformApplication
      (ResourceData.mk "" [] [("platform", "APNS_SANDBOX")]) =
      Except.error "platform_principal is required when platform = APNS_SANDBOX" := by
  refine ⟨?_, ?_, ?_⟩
  · cases hb : requiresPlatformPrincipal "GCM" with
    | false => rfl
    | true => exact absurd ((principal_required_set_exact.1 "GCM").mp hb) (by decide)
  · exact principal_required_set_exact.2.1 _ (by decide)
  · exact principal_required_set_exact.2.2 _ (by decide) (by decide)

/-- C4 counterexample: the attribute name map has eight entries, not seven
(`platform_principal` is its sixth key). -/
theorem attributeMap_size_not_seven : SNSPlatformAppAttributeMap.length ≠ 7 := by
  decide

/-- C4 (amended): the attribute name map is a fixed mapping from exactly eight
distinct local field names to exactly eight distinct remote attribute names,
and every key corresponds to an optional field of the declared schema. -/
theorem attributeMap_eight_optional_fields :
    SNSPlatformAppAttributeMap.length = 8 ∧
    (SNSPlatformAppAttributeMap.map (fun p => p.1)).Nodup ∧
    (SNSPlatformAppAttributeMap.map (fun p => p.2)).Nodup ∧
    SNSPlatformAppAttributeMap.all (fun p =>
      match schemaLookup p.1 with
      | some s => s.optional
      | none => false) = true := by
  decide

/-- C5: Delete issues exactly one deletion request, for the resource's
identifier; a remote failure is surfaced as-is (carrying the remote message,
with no already-deleted special case), and otherwise Delete succeeds with no
return value. -/
theorem delete_single_request (d : ResourceData)
    (dr : String → Except String Unit) :
    (resourceAwsSnsApplicationDelete d dr).1 = [d.rid] ∧
    (∀ e, dr d.rid = Except.error e →
      resourceAwsSnsApplicationDelete d dr = ([d.rid], Except.error e)) ∧
    (∀ u, dr d.rid = Except.ok u →
      resourceAwsSnsApplicationDelete d dr = ([d.rid], Except.ok ())) := by
  refine ⟨?_, ?_, ?_⟩
  · rcases h : dr d.rid with e | u <;> simp [resourceAwsSnsApplicationDelete, h]
  · intro e h
    simp [resourceAwsSnsApplicationDelete, h]
  · intro u h
    simp [resourceAwsSnsApplicationDelete, h]

/-- Witness for C5: one failing and one succeeding deletion at `arn:x`. -/
theorem delete_single_request_witness :
    resourceAwsSnsApplicationDelete (ResourceData.mk "arn:x" [] [])
      (fun _ => Except.error "boom") = (["arn:x"], Except.error "boom") ∧
    resourceAwsSnsApplicationDelete (ResourceData.mk "arn:x" [] [])
      (fun _ => Except.ok ()) = (["arn:x"], Except.ok ()) :=
  ⟨(delete_single_request _ _).2.1 "boom" rfl,
   (delete_single_request _ _).2.2 () rfl⟩

/-- C6: when the remote attribute-update call fails, Update returns the
update error and the resource state is exactly the input state — no local
field is mutated. -/
theorem update_failure_no_mutation (d : ResourceData)
    (sr : SetAttrRequest → Except String Unit)
    (fr : String → Except String SMap) (e : String)
    (h : sr (SetAttrRequest.mk d.rid (snsUpdateAttributes d)) = Except.error e) :
    resourceAwsSnsApplicationUpdate d sr fr =
      (d, Except.error ("Error updating SNS application: " ++ e)) := by
  simp [resourceAwsSnsApplicationUpdate, h]

/-- Witness for C6: a failing remote update leaves the concrete state
untouched. -/
theorem update_failure_no_mutation_witness :
    resourceAwsSnsApplicationUpdate (ResourceData.mk "arn:x" [] [])
      (fun _ => Except.error "boom") (fun _ => Except.ok []) =
      (ResourceData.mk "arn:x" [] [],
        Except.error "Error updating SNS application: boom") :=
  update_failure_no_mutation _ _ _ "boom" rfl

/-- C7: Create's request always carries `PlatformCredential`, carries
`PlatformPrincipal` exactly when a principal is set and nothing else; on
remote failure Create fails with the create error; on success it stores the
returned identifier and delegates to Update. -/
theorem create_request_and_delegation (d : ResourceData)
    (cr : CreateAppRequest → Except String String)
    (sr : SetAttrRequest → Except String Unit)
    (fr : String → Except String SMap) :
    (snsCreateAttributes d).getVal "PlatformCredential" =
      some (d.getAttr "platform_credential") ∧
    (snsCreateAttributes d).getVal "PlatformPrincipal" =
      d.getOkAttr "platform_principal" ∧
    (∀ k, k ≠ "PlatformCredential" → k ≠ "PlatformPrincipal" →
      (snsCreateAttributes d).getVal k = none) ∧
    (∀ e, cr (snsCreateRequest d) = Except.error e →
      resourceAwsSnsApplicationCreate d cr sr fr =
        (d, Except.error ("Error creating SNS application: " ++ e))) ∧
    (∀ i, cr (snsCreateRequest d) = Except.ok i →
      resourceAwsSnsApplicationCreate d cr sr fr =
        resourceAwsSnsApplicationUpdate (d.setId i) sr fr) := by
  refine ⟨?_, ?_, ?_, ?_, ?_⟩
  · rcases hp : d.getOkAttr "platform_principal" with _ | v
    · simp only [snsCreateAttributes, hp]
      rw [SMap.getVal_setVal, if_pos rfl]
    · simp only [snsCreateAttributes, hp]
      rw [SMap.getVal_setVal, if_neg (by decide), SMap.getVal_setVal, if_pos rfl]
  · rcases hp : d.getOkAttr "platform_principal" with _ | v
    · simp only [snsCreateAttributes, hp]
      rw [SMap.getVal_setVal, if_neg (by decide)]
      rfl
    · simp only [snsCreateAttributes, hp]
      rw [SMap.getVal_setVal, if_pos rfl]
  · intro k h1 h2
    rcases hp : d.getOkAttr "platform_principal" with _ | v
    · simp only [snsCreateAttributes, hp]
      rw [SMap.getVal_setVal, if_neg h1]
      rfl
    · simp only [snsCreateAttributes, hp]
      rw [SMap.getVal_setVal, if_neg h2, SMap.getVal_setVal, if_neg h1]
      rfl
  · intro e h
    simp [resourceAwsSnsApplicationCreate, h]
  · intro i h
    simp [resourceAwsSnsApplicationCreate, h]

/-- Witness for C7: a failing and a succeeding creation at a concrete
configuration with a credential and no principal. -/
theorem create_request_and_delegation_witness :
    resourceAwsSnsApplicationCreate
      (ResourceData.mk "" [] [("platform_credential", "cred")])
      (fun _ => Except.error "boom") (fun _ => Except.ok ())
      (fun _ => Except.ok []) =
      (ResourceData.mk "" [] [("platform_credential", "cred")],
        Except.error "Error creating SNS application: boom") ∧
    resourceAwsSnsApplicationCreate
      (ResourceData.mk "" [] [("platform_credential", "cred")])
      (fun _ => Except.ok "arn:new") (fun _ => Except.ok ())
      (fun _ => Except.ok []) =
      resourceAwsSnsApplicationUpdate
        ((ResourceData.mk "" [] [("platform_credential", "cred")]).setId "arn:new")
        (fun _ => Except.ok ()) (fun _ => Except.ok []) :=
  ⟨(create_request_and_delegation _ _ _ _).2.2.2.1 "boom" rfl,
   (create_request_and_delegation _ _ _ _).2.2.2.2 "arn:new" rfl⟩

/-- C8: Read's copy phase writes a local field exactly when its remote name in
the attribute name map was fetched and the field is a declared schema field;
every other local field is untouched, so remote keys without a local
counterpart are silently ignored; and Read's success path is exactly this copy
applied after the identifier-derived fields. -/
theorem read_copies_only_mapped :
    (∀ (attrmap : SMap) (d : ResourceData) (p : String × String),
      p ∈ SNSPlatformAppAttributeMap →
      (copyAttributes attrmap d).getOkAttr p.1 =
        (match attrmap.getVal p.2 with
         | some v => if (schemaLookup p.1).isSome then some v else d.getOkAttr p.1
         | none => d.getOkAttr p.1)) ∧
    (∀ (attrmap : SMap) (d : ResourceData) (k : String),
      (∀ p ∈ SNSPlatformAppAttributeMap, p.1 ≠ k) →
      (copyAttributes attrmap d).getOkAttr k = d.getOkAttr k) ∧
    (∀ (d : ResourceData) (fr : String → Except String SMap) (a : GoARN)
       (pl nm : String) (attrmap : SMap),
      arnParse d.rid = some a →
      splitChar '/' a.resource = ["app", pl, nm] →
      fr (arnToString a) = Except.ok attrmap →
      resourceAwsSnsApplicationRead d fr =
        (copyAttributes attrmap
          (((d.setAttr "arn" (arnToString a)).setAttr "name" nm).setAttr
            "platform" pl),
          Except.ok ())) := by
  refine ⟨?_, ?_, ?_⟩
  · intro attrmap d p hp
    rcases attrmap with _ | ⟨x, xs⟩
    · simp [copyAttributes, SMap.getVal_nil]
    · rw [show copyAttributes (x :: xs) d =
          SNSPlatformAppAttributeMap.foldl (copyStep (x :: xs)) d from by
            simp [copyAttributes]]
      exact foldl_copyStep_mem (x :: xs) SNSPlatformAppAttributeMap d p hp
        (by decide)
  · intro attrmap d k h
    exact copyAttributes_preserves attrmap d k h
  · intro d fr a pl nm attrmap hparse hparts hfetch
    simp only [resourceAwsSnsApplicationRead, hparse, hparts]
    simp only [List.length_cons, List.length_nil, List.getD]
    norm_num
    simp [hfetch]

/-- Witness for C8: a fetched mapped key is copied and an unmapped remote key
leaves local state untouched. -/
theorem read_copies_only_mapped_witness :
    (copyAttributes [("EventDeliveryFailure", "t")]
      (ResourceData.mk "" [] [])).getOkAttr "event_delivery_failure_topic_arn" =
      some "t" ∧
    (copyAttributes [("EventDeliveryFailure", "t")]
      (ResourceData.mk "" [] [])).getOkAttr "owner" = none := by
  constructor
  · exact (read_copies_only_mapped.1 [("EventDeliveryFailure", "t")]
      (ResourceData.mk "" [] [])
      ("event_delivery_failure_topic_arn", "EventDeliveryFailure")
      (by decide)).trans (by decide)
  · exact (read_copies_only_mapped.2.1 [("EventDeliveryFailure", "t")]
      (ResourceData.mk "" [] []) "owner" (by decide)).trans (by decide)

/-- C10: on a parsable identifier Read writes `arn`, `name` and `platform`
before issuing the remote fetch, so when the fetch fails the error is returned
while those three fields have already been updated in local state. -/
theorem read_sets_fields_before_failed_fetch (d : ResourceData)
    (fr : String → Except String SMap) (a : GoARN) (pl nm e : String)
    (hparse : arnParse d.rid = some a)
    (hparts : splitChar '/' a.resource = ["app", pl, nm])
    (hfetch : fr (arnToString a) = Except.error e) :
    resourceAwsSnsApplicationRead d fr =
      (((d.setAttr "arn" (arnToString a)).setAttr "name" nm).setAttr
        "platform" pl, Except.error e) ∧
    (resourceAwsSnsApplicationRead d fr).1.getAttr "arn" = arnToString a ∧
    (resourceAwsSnsApplicationRead d fr).1.getAttr "name" = nm ∧
    (resourceAwsSnsApplicationRead d fr).1.getAttr "platform" = pl := by
  have h : resourceAwsSnsApplicationRead d fr =
      (((d.setAttr "arn" (arnToString a)).setAttr "name" nm).setAttr
        "platform" pl, Except.error e) := by
    simp only [resourceAwsSnsApplicationRead, hparse, hparts]
    simp only [List.length_cons, List.length_nil, List.getD]
    norm_num
    simp [hfetch]
  refine ⟨h, ?_, ?_, ?_⟩
  · rw [h, getAttr_eq_getOk, getOkAttr_setAttr, if_neg (by decide),
      getOkAttr_setAttr, if_neg (by decide), getOkAttr_setAttr, if_pos rfl]
    rfl
  · rw [h, getAttr_eq_getOk, getOkAttr_setAttr, if_neg (by decide),
      getOkAttr_setAttr, if_pos rfl]
    rfl
  · rw [h, getAttr_eq_getOk, getOkAttr_setAttr, if_pos rfl]
    rfl

/-- Witness for C10: a failing fetch on a concrete well-formed identifier
returns the fetch error with `arn`, `name`, `platform` already set. -/
theorem read_sets_fields_before_failed_fetch_witness :
    resourceAwsSnsApplicationRead
      (ResourceData.mk "arn:aws:sns:r:a:app/GCM/app1" [] [])
      (fun _ => Except.error "boom") =
      ((((ResourceData.mk "arn:aws:sns:r:a:app/GCM/app1" [] []).setAttr "arn"
          (arnToString (GoARN.mk "aws" "sns" "r" "a" "app/GCM/app1"))).setAttr
          "name" "app1").setAttr "platform" "GCM",
        Except.error "boom") :=
  (read_sets_fields_before_failed_fetch _ _
    (GoARN.mk "aws" "sns" "r" "a" "app/GCM/app1") "GCM" "app1" "boom"
    (by decide) (by decide) rfl).1

end SnsApp
